import Mathlib

/-!
Verification of the rules-engine-demo repository: a shallow embedding of the
rule generation, validation, evaluation and summarization pipeline
(`field-mapping.js`, `ollama-integration.js`, `rule-engine-service.js`),
together with theorems settling the specification claims.

JavaScript numbers are modelled as rationals (`Rat`), JavaScript values as the
inductive `JVal`, fallible external calls (the Ollama HTTP backend, the
built-in `JSON.parse`) as explicit function parameters returning `Except`,
and the outbound HTTP requests of a call as an explicit request log threaded
through the functions.  JS arithmetic and string primitives are modelled by
the `j...`/`js...` helpers below, written so that they evaluate by kernel
reduction on concrete inputs.
-/

namespace RulesDemo

/-! ## JS primitives -/

/-- JS `+` on numbers, via `Rat.divInt` on numerator/denominator. -/
def jAdd (a b : Rat) : Rat := Rat.divInt (a.num * b.den + b.num * a.den) (a.den * b.den)

/-- JS `*` on numbers. -/
def jMul (a b : Rat) : Rat := Rat.divInt (a.num * b.num) (a.den * b.den)

/-- JS `/` on numbers (division by zero yields 0 here, standing in for the
JS `Infinity`/`NaN` results, which are unreachable on the claims' paths). -/
def jDiv (a b : Rat) : Rat := Rat.divInt (a.num * b.den) (a.den * b.num)

/-- A JS number literal from a natural number. -/
def ratOfNat (n : Nat) : Rat := Rat.divInt (Int.ofNat n) 1

theorem jAdd_eq (a b : Rat) : jAdd a b = a + b := by
  have ha : (a.den : Int) ≠ 0 := Int.natCast_ne_zero.mpr a.den_nz
  have hb : (b.den : Int) ≠ 0 := Int.natCast_ne_zero.mpr b.den_nz
  rw [jAdd, ← Rat.divInt_add_divInt _ _ ha hb, Rat.num_divInt_den, Rat.num_divInt_den]

theorem jMul_eq (a b : Rat) : jMul a b = a * b := by
  rw [jMul, ← Rat.divInt_mul_divInt _ _ (Int.natCast_ne_zero.mpr a.den_nz)
    (Int.natCast_ne_zero.mpr b.den_nz), Rat.num_divInt_den, Rat.num_divInt_den]

theorem jDiv_eq (a b : Rat) : jDiv a b = a / b := by
  by_cases hb : b.num = 0
  · have hb0 : b = 0 := by rwa [Rat.num_eq_zero] at hb
    subst hb0
    simp [jDiv]
  · rw [jDiv, div_eq_mul_inv, Rat.inv_def']
    conv_rhs => rw [← Rat.num_divInt_den a]
    rw [Rat.divInt_mul_divInt _ _ (Int.natCast_ne_zero.mpr a.den_nz) hb]

theorem ratOfNat_eq (n : Nat) : ratOfNat n = (n : Rat) := by
  rw [ratOfNat, Rat.divInt_one]
  norm_cast

/-- `Number.prototype.toFixed(d)` for the values reaching it in this program:
decimal rendering with `d` fractional digits, rounding half up (standing in
for the IEEE-754 double rounding of JS). -/
def ratToFixed (d : Nat) (q : Rat) : String :=
  let nn : Nat := q.num.natAbs * 10 ^ d
  let rounded : Nat := (2 * nn + q.den) / (2 * q.den)
  let base : Nat := 10 ^ d
  let ip := rounded / base
  let fp := rounded % base
  let fpStr := toString fp
  let pad := String.mk (List.replicate (d - fpStr.length) (Char.ofNat 48))
  let core := if d == 0 then toString ip else toString ip ++ "." ++ pad ++ fpStr
  if q.num < 0 then "-" ++ core else core

/-- `String.prototype.toLowerCase`. -/
def jsToLower (s : String) : String := ⟨s.data.map Char.toLower⟩

/-- `String.prototype.trim`. -/
def jsTrim (s : String) : String :=
  ⟨((s.data.dropWhile Char.isWhitespace).reverse.dropWhile Char.isWhitespace).reverse⟩

/-- Whether `pat` occurs at the head of `s`. -/
def leadChars : List Char → List Char → Bool
  | _, [] => true
  | [], _ :: _ => false
  | c :: cs, p :: ps => c == p && leadChars cs ps

/-- `String.prototype.startsWith`. -/
def leadsWith (s pat : String) : Bool := leadChars s.data pat.data

/-- `String.prototype.endsWith`. -/
def trailsWith (s pat : String) : Bool := leadChars s.data.reverse pat.data.reverse

/-- First index at which the pattern occurs in the character list, if any
(the search a JS regex like `/<result>/` performs). -/
def findSubstrIdx (s pat : List Char) : Option Nat :=
  (List.range (s.length + 1)).find? (fun i => leadChars (s.drop i) pat)

/-- JS `String.prototype.includes` / substring containment. -/
def substrOccurs (s pat : String) : Bool := (findSubstrIdx s.data pat.data).isSome

/-- Join a list of strings with a separator (`Array.prototype.join`). -/
def joinWith (sep : String) : List String → String
  | [] => ""
  | [s] => s
  | s :: rest => s ++ sep ++ joinWith sep rest

/-- JS `a || b` for an optional string `a` against a default (`undefined` and
the empty string are falsy). -/
def jsOrStr (o : Option String) (dflt : String) : String :=
  match o with
  | some s => if s = "" then dflt else s
  | none => dflt

/-! ## JS values -/

/-- Model of a JavaScript runtime value: `undefined`, `null`, booleans,
numbers (as rationals), strings, arrays and plain objects (ordered key/value
lists, as produced by `JSON.parse`). -/
inductive JVal where
  | undefined
  | null
  | bool (b : Bool)
  | num (q : Rat)
  | str (s : String)
  | arr (elems : List JVal)
  | obj (fields : List (String × JVal))

/-- First binding of a key in an object's field list (JS own-property lookup). -/
def lookupJField : List (String × JVal) → String → Option JVal
  | [], _ => none
  | (k, v) :: rest, key => if k == key then some v else lookupJField rest key

/-- JS property access `v[key]` for receivers on which it cannot throw:
`undefined` on missing keys and on non-object primitives.  Access on a `null`
or `undefined` receiver throws a TypeError in JS; code paths where such a
receiver is reachable use `getPropEx` instead. -/
def JVal.getProp : JVal → String → JVal
  | .obj fs, k => (lookupJField fs k).getD .undefined
  | _, _ => .undefined

/-- JS property access `v[key]` with its throw path explicit: a TypeError on
a `null` or `undefined` receiver, the plain access otherwise. -/
def getPropEx (v : JVal) (key : String) : Except String JVal :=
  match v with
  | .null => .error ("Cannot read properties of null (reading \x27" ++ key ++ "\x27)")
  | .undefined => .error ("Cannot read properties of undefined (reading \x27" ++ key ++ "\x27)")
  | _ => .ok (v.getProp key)

/-- JS truthiness: `undefined`, `null`, `false`, `0` and `""` are falsy. -/
def truthy : JVal → Bool
  | .undefined => false
  | .null => false
  | .bool b => b
  | .num q => !(q == 0)
  | .str s => !(s == "")
  | .arr _ => true
  | .obj _ => true

/-- Whether a value is JS `undefined`. -/
def JVal.isUndefined : JVal → Bool
  | .undefined => true
  | _ => false

/-- Whether a value is a JS number. -/
def JVal.isNum : JVal → Bool
  | .num _ => true
  | _ => false

/-- JS `a || b` on values: `a` when truthy, otherwise `b`. -/
def jsOr (a b : JVal) : JVal := if truthy a then a else b

/-- JS strict equality `===` restricted to the values that flow through this
program: scalars compare by value; distinct array/object references compare
unequal (as they do for freshly parsed JSON values). -/
def jsStrictEq : JVal → JVal → Bool
  | .undefined, .undefined => true
  | .null, .null => true
  | .bool a, .bool b => a == b
  | .num a, .num b => a == b
  | .str a, .str b => a == b
  | _, _ => false

/-- String rendering of a value inside a JS template literal (number
rendering approximates the JS shortest-round-trip format; values reaching it
in this program are strings and integral numbers). -/
def jsTemplate : JVal → String
  | .undefined => "undefined"
  | .null => "null"
  | .bool b => if b then "true" else "false"
  | .num q => if q.den == 1 then toString q.num else ratToFixed 2 q
  | .str s => s
  | .arr _ => ""
  | .obj _ => "[object Object]"

/-! ## field-mapping.js -/

/-- One entry of `FIELD_MAPPING`: a field name, its type tag, a description. -/
structure FieldDescriptor where
  name : String
  ftype : String
  description : String

/-- `FIELD_MAPPING` of field-mapping.js, in CSV-column order 0..23. -/
def FIELD_MAPPING : List FieldDescriptor :=
  [ ⟨"transactionId", "string", "Unique transaction identifier"⟩
  , ⟨"timestamp", "datetime", "Transaction timestamp"⟩
  , ⟨"cardNumber", "string", "Credit card number"⟩
  , ⟨"merchant", "string", "Merchant name"⟩
  , ⟨"category", "string", "Transaction category (home, travel, food_dining, etc.)"⟩
  , ⟨"amt", "number", "Transaction amount in dollars"⟩
  , ⟨"firstName", "string", "Cardholder first name"⟩
  , ⟨"lastName", "string", "Cardholder last name"⟩
  , ⟨"gender", "string", "Cardholder gender (M/F)"⟩
  , ⟨"streetAddress", "string", "Street address"⟩
  , ⟨"city", "string", "City"⟩
  , ⟨"state", "string", "State abbreviation"⟩
  , ⟨"zip", "string", "ZIP code"⟩
  , ⟨"lat", "number", "Latitude coordinate"⟩
  , ⟨"long", "number", "Longitude coordinate"⟩
  , ⟨"cityPop", "number", "City population"⟩
  , ⟨"job", "string", "Job title"⟩
  , ⟨"dob", "date", "Date of birth"⟩
  , ⟨"transHash", "string", "Transaction hash"⟩
  , ⟨"unixTime", "number", "Unix timestamp"⟩
  , ⟨"merLat", "number", "Merchant latitude"⟩
  , ⟨"merLong", "number", "Merchant longitude"⟩
  , ⟨"isFraud", "number", "Fraud indicator (0/1)"⟩
  , ⟨"merZip", "string", "Merchant ZIP code"⟩ ]

/-- `FIELD_ALIASES` of field-mapping.js. -/
def FIELD_ALIASES : List (String × String) :=
  [ ("amount", "amt"), ("price", "amt"), ("cost", "amt"), ("value", "amt")
  , ("dollars", "amt"), ("money", "amt"), ("transaction amount", "amt")
  , ("store", "merchant"), ("shop", "merchant"), ("business", "merchant")
  , ("vendor", "merchant"), ("company", "merchant")
  , ("name", "firstName"), ("first name", "firstName")
  , ("last name", "lastName"), ("surname", "lastName")
  , ("location", "city"), ("place", "city")
  , ("fraud", "isFraud"), ("fraudulent", "isFraud"), ("suspicious", "isFraud") ]

/-- `OPERATOR_MAPPING` of field-mapping.js. -/
def OPERATOR_MAPPING : List (String × String) :=
  [ ("less than", "lessThan"), ("lt", "lessThan"), ("<", "lessThan")
  , ("greater than", "greaterThan"), ("gt", "greaterThan"), (">", "greaterThan")
  , ("equal to", "equal"), ("equals", "equal"), ("is", "equal"), ("=", "equal"), ("==", "equal")
  , ("not equal to", "notEqual"), ("not equals", "notEqual"), ("!=", "notEqual")
  , ("less than or equal", "lessThanInclusive"), ("lte", "lessThanInclusive"), ("<=", "lessThanInclusive")
  , ("greater than or equal", "greaterThanInclusive"), ("gte", "greaterThanInclusive"), (">=", "greaterThanInclusive")
  , ("contains", "contains"), ("includes", "contains")
  , ("in", "in") ]

/-- The loop of `normalizeField` over `FIELD_MAPPING`: first descriptor whose
name matches the normalized text case-insensitively. -/
def findFieldName (normalized : String) : Option String :=
  (FIELD_MAPPING.find? (fun f => jsToLower f.name == normalized)).map (fun f => f.name)

/-- `normalizeField` of natural-language-parser.js: lowercase and trim, check
the alias table, then descriptor names; on no match return the normalized text
itself. -/
def normalizeField (fieldText : String) : String :=
  let normalized := jsTrim (jsToLower fieldText)
  match FIELD_ALIASES.lookup normalized with
  | some f => f
  | none =>
    match findFieldName normalized with
    | some name => name
    | none => normalized

/-- `normalizeOperator` of natural-language-parser.js: table lookup on the
lowercased, trimmed text; on a miss return the original text. -/
def normalizeOperator (operatorText : String) : String :=
  let normalized := jsTrim (jsToLower operatorText)
  (OPERATOR_MAPPING.lookup normalized).getD operatorText

/-! ### Claim C2 -/

/-- C2 counterexample: on the unmatched input "zzz" (no alias entry and no
descriptor name), `normalizeField` returns the input text itself, not null —
refuting the claim that an unresolved field yields null and never the input
text. -/
theorem normalizeField_returns_input_cex :
    normalizeField "zzz" = "zzz" ∧
    FIELD_ALIASES.lookup "zzz" = none ∧
    findFieldName "zzz" = none := by
  refine ⟨rfl, rfl, rfl⟩

/-- C2 (amended): `resolveField` lowercases and trims its input, consults the
alias table first, then an exact case-insensitive match against descriptor
names, and returns the normalized input text unchanged — not null — when
nothing matches; moreover `resolveField "amount" = "amt"`,
`resolveField "fraud" = "isFraud"` and
`resolveOperator "gte" = "greaterThanInclusive"`. -/
theorem normalizeField_resolution_spec :
    normalizeField "amount" = "amt" ∧
    normalizeField "fraud" = "isFraud" ∧
    normalizeOperator "gte" = "greaterThanInclusive" ∧
    (∀ s target, FIELD_ALIASES.lookup (jsTrim (jsToLower s)) = some target →
      normalizeField s = target) ∧
    (∀ s name, FIELD_ALIASES.lookup (jsTrim (jsToLower s)) = none →
      findFieldName (jsTrim (jsToLower s)) = some name →
      normalizeField s = name) ∧
    (∀ s, FIELD_ALIASES.lookup (jsTrim (jsToLower s)) = none →
      findFieldName (jsTrim (jsToLower s)) = none →
      normalizeField s = jsTrim (jsToLower s)) := by
  refine ⟨rfl, rfl, rfl, ?_, ?_, ?_⟩
  · intro s target h
    simp only [normalizeField, h]
  · intro s name h₁ h₂
    simp only [normalizeField, h₁, h₂]
  · intro s h₁ h₂
    simp only [normalizeField, h₁, h₂]

/-- C2 witness: the amended theorem applied at the concrete inputs
" Unknown Thing " (no alias, no descriptor), "price" (alias of amt), and
"AMT" (descriptor name, case-insensitively). -/
theorem normalizeField_resolution_witness :
    normalizeField " Unknown Thing " = "unknown thing" ∧
    normalizeField "price" = "amt" ∧
    normalizeField "AMT" = "amt" := by
  exact ⟨normalizeField_resolution_spec.2.2.2.2.2 " Unknown Thing " rfl rfl,
         normalizeField_resolution_spec.2.2.2.1 "price" "amt" rfl,
         normalizeField_resolution_spec.2.2.2.2.1 "AMT" "amt" rfl rfl⟩

/-! ## ollama-integration.js: rule validation and JSON extraction -/

/-- The per-condition check of `validateRule`'s loop: the condition has a
truthy `fact`, a truthy `operator`, and a `value` that is not `undefined`. -/
def condOk (c : JVal) : Bool :=
  truthy (c.getProp "fact") && truthy (c.getProp "operator") && !((c.getProp "value").isUndefined)

/-- The `for (const condition of conditions)` loop of `validateRule`: each
condition must have a truthy `fact`, a truthy `operator` and a defined
`value`.  The `condition.fact` access throws on a null (or undefined)
condition element, aborting validation; the later accesses cannot throw
since they are only reached when `condition.fact` was readable. -/
def validateConditions : List JVal → Except String Bool
  | [] => .ok true
  | c :: rest =>
    match getPropEx c "fact" with
    | .error e => .error e
    | .ok f =>
      if !(truthy f) || !(truthy (c.getProp "operator")) || (c.getProp "value").isUndefined then
        .ok false
      else validateConditions rest

/-- The tail of `validateRule` on the selected condition group
(`const conditions = ...`): a non-array or empty group is rejected, otherwise
each condition is checked in order. -/
def validateGroup (sel : JVal) : Except String Bool :=
  match sel with
  | .arr cs => if cs.length == 0 then .ok false else validateConditions cs
  | _ => .ok false

/-- `validateRule` of ollama-integration.js: basic structural validation of
the parsed value against the json-rules-engine format.  Its JS property
accesses can throw: on a parsed `null` (or `undefined`) the initial
`rule.conditions` access throws a TypeError, as does `condition.fact` on a
null condition element; a throw is propagated as an error for
`parseJsonFromResponse`'s catch.  All other accesses are on receivers
already known truthy or readable and cannot throw. -/
def validateRule (rule : JVal) : Except String Bool :=
  match getPropEx rule "conditions" with
  | .error e => .error e
  | .ok conds =>
    if !(truthy conds) || !(truthy (rule.getProp "event")) then .ok false
    else if !(truthy (conds.getProp "all")) && !(truthy (conds.getProp "any")) then .ok false
    else validateGroup (jsOr (conds.getProp "all") (conds.getProp "any"))

/-- The group predicate of the amended claim: a non-empty array all of whose
elements satisfy the condition invariant. -/
def validGroupSpec (sel : JVal) : Bool :=
  match sel with
  | .arr cs => !(cs.isEmpty) && cs.all condOk
  | _ => false

/-- The schema predicate as the amended claim words it: `conditions` and
`event` both truthy, at least one of `all`/`any` truthy, and the selected
group (`all` when truthy, otherwise `any`) a non-empty array all of whose
elements satisfy the condition invariant. -/
def validSchemaSpec (rule : JVal) : Bool :=
  truthy (rule.getProp "conditions") && truthy (rule.getProp "event") &&
  (truthy ((rule.getProp "conditions").getProp "all") ||
   truthy ((rule.getProp "conditions").getProp "any")) &&
  validGroupSpec (if truthy ((rule.getProp "conditions").getProp "all")
                  then (rule.getProp "conditions").getProp "all"
                  else (rule.getProp "conditions").getProp "any")

/-- Candidate text between the first `<result>` and the following
`</result>` tag, trimmed — the lazy regex `/<result>(.*?)<\/result>/s`; the
whole response when the tags are absent. -/
def tagSlice (response : String) : String :=
  match findSubstrIdx response.data "<result>".data with
  | none => response
  | some i =>
    let after := response.data.drop (i + 8)
    match findSubstrIdx after "</result>".data with
    | none => response
    | some j => jsTrim ⟨after.take j⟩

/-- Strip leading/trailing fenced-code-block markers: the two
`replace(/^```json\s*/,'').replace(/\s*```$/,'')` passes followed by the two
plain-fence passes. -/
def stripFences (s0 : String) : String :=
  let s1 := if leadsWith s0 "```json" then ⟨(s0.data.drop 7).dropWhile Char.isWhitespace⟩ else s0
  let s2 := if trailsWith s1 "```" then
    ⟨((s1.data.take (s1.data.length - 3)).reverse.dropWhile Char.isWhitespace).reverse⟩ else s1
  let s3 := if leadsWith s2 "```" then ⟨(s2.data.drop 3).dropWhile Char.isWhitespace⟩ else s2
  let s4 := if trailsWith s3 "```" then
    ⟨((s3.data.take (s3.data.length - 3)).reverse.dropWhile Char.isWhitespace).reverse⟩ else s3
  s4

/-- The greedy regex `/\{.*\}/s`: the slice from the first opening brace to
the last closing brace, when the former precedes the latter; otherwise the
input unchanged. -/
def braceSlice (s : String) : String :=
  let cs := s.data
  match cs.findIdx? (fun c => c == Char.ofNat 123), cs.reverse.findIdx? (fun c => c == Char.ofNat 125) with
  | some i, some k =>
    let j := cs.length - 1 - k
    if i < j then ⟨(cs.drop i).take (j - i + 1)⟩ else s
  | _, _ => s

/-- The candidate-isolation pipeline of `parseJsonFromResponse`: prefer the
delimiter-tag content, strip code fences, then slice to the outermost braces. -/
def extractCandidate (response : String) : String :=
  braceSlice (stripFences (tagSlice response))

/-- The error-message prefix of a parse failure in `parseJsonFromResponse`. -/
def parseErrorPrefix : String := "Failed to parse JSON from LLM response: "

/-- The error message of a schema-validation failure in `parseJsonFromResponse`. -/
def schemaErrorMsg : String := "Generated rule does not match expected json-rules-engine format"

/-- Result record of `generateRule` / `parseJsonFromResponse`. -/
structure RuleGenResult where
  success : Bool
  rule : Option JVal
  source : Option String
  error : Option String
  rawResponse : Option String

/-- `parseJsonFromResponse` of ollama-integration.js, with the JS built-in
`JSON.parse` passed in as the fallible function `jsParse`.  The single
try/catch wraps both the parse and the validation, so a TypeError thrown
inside `validateRule` is reported through the same catch as a parse failure
(prefixed message, raw response attached). -/
def parseJsonFromResponse (jsParse : String → Except String JVal) (response : String) :
    RuleGenResult :=
  match jsParse (extractCandidate response) with
  | .ok parsedRule =>
    match validateRule parsedRule with
    | .ok true =>
      { success := true, rule := some parsedRule, source := some "ollama",
        error := none, rawResponse := none }
    | .ok false =>
      { success := false, rule := none, source := none,
        error := some schemaErrorMsg, rawResponse := some response }
    | .error msg =>
      { success := false, rule := none, source := none,
        error := some (parseErrorPrefix ++ msg), rawResponse := some response }
  | .error msg =>
    { success := false, rule := none, source := none,
      error := some (parseErrorPrefix ++ msg), rawResponse := some response }

/-! ### Claim C3 -/

/-- A rule carrying BOTH a valid `all` group and an `any` group. -/
def bothGroupsRule : JVal :=
  .obj [ ("conditions", .obj
           [ ("all", .arr [.obj [("fact", .str "amt"), ("operator", .str "lessThan"), ("value", .num 10)]])
           , ("any", .arr [.obj [("fact", .str "city"), ("operator", .str "equal"), ("value", .str "Rome")]]) ])
       , ("event", .obj [("type", .str "transaction-match")]) ]

/-- Condition-loop checks either throw at a null/undefined element (on which
`condOk` is false) or compute the conjunction of `condOk` over the list. -/
theorem validateConditions_or :
    ∀ cs : List JVal,
      ((∃ m, validateConditions cs = .error m) ∧ cs.all condOk = false) ∨
      validateConditions cs = .ok (cs.all condOk) := by
  intro cs
  induction cs with
  | nil => right; rfl
  | cons c rest ih =>
    rcases hget : getPropEx c "fact" with m | f
    · have hc0 : condOk c = false := by
        cases c <;> first | rfl | simp [getPropEx] at hget
      left
      refine ⟨⟨m, ?_⟩, ?_⟩
      · simp only [validateConditions, hget]
      · simp [List.all_cons, hc0]
    · have hf : f = c.getProp "fact" := by
        cases c <;> simp [getPropEx] at hget <;> exact hget.symm
      subst hf
      have hcondeq : (!(truthy (c.getProp "fact")) || !(truthy (c.getProp "operator")) ||
          (c.getProp "value").isUndefined) = !(condOk c) := by
        rw [condOk]
        cases truthy (c.getProp "fact") <;> cases truthy (c.getProp "operator") <;>
          cases (c.getProp "value").isUndefined <;> rfl
      rcases hc : condOk c
      · right
        simp [validateConditions, hget, hcondeq, hc, List.all_cons]
      · rcases ih with ⟨⟨m, hm⟩, hall⟩ | hok
        · left
          exact ⟨⟨m, by simp [validateConditions, hget, hcondeq, hc, hm]⟩,
                 by simp [List.all_cons, hc, hall]⟩
        · right
          simp [validateConditions, hget, hcondeq, hc, List.all_cons, hok]

/-- On the selected group, acceptance coincides with the group predicate of
the amended claim. -/
theorem validateGroup_ok_true (x : JVal) :
    validateGroup x = .ok true ↔ validGroupSpec x = true := by
  have harr : ∀ cs : List JVal,
      validateGroup (.arr cs) = .ok true ↔ validGroupSpec (.arr cs) = true := by
    intro cs
    cases cs with
    | nil => simp [validateGroup, validGroupSpec]
    | cons a l =>
      rcases validateConditions_or (a :: l) with ⟨⟨m, hm⟩, hall⟩ | hok
      · simp [validateGroup, validGroupSpec, hm, hall]
      · simp [validateGroup, validGroupSpec, hok]
  cases x <;> first | exact harr _ | simp [validateGroup, validGroupSpec]

/-- C3 counterexample: `validateRule` accepts a rule in which BOTH `all` and
`any` are present (validating only the `all` array), refuting the claim that
acceptance requires exactly one of `all`/`any`. -/
theorem validateRule_accepts_both_groups_cex :
    validateRule bothGroupsRule = .ok true ∧
    ((bothGroupsRule.getProp "conditions").getProp "all").isUndefined = false ∧
    ((bothGroupsRule.getProp "conditions").getProp "any").isUndefined = false := by
  refine ⟨rfl, rfl, rfl⟩

/-- C3 (amended): the validator accepts a parsed value iff it has truthy
`conditions` and `event`, at least one of `all`/`any` truthy, and the
selected group (`all` when truthy, otherwise `any`) is a non-empty array
every element of which has a truthy `fact`, a truthy `operator` and a
defined `value`.  A parse-ok value that fails this check without throwing
yields a schema error distinct from the parse error, carrying the raw
response string; a parsed value on which validation throws a TypeError (a
parsed `null`, or a null condition element) is caught by the same try/catch
and reported as the parse-prefixed error, also carrying the raw response.
In neither case does generateRule return a success. -/
theorem validateRule_schema_spec :
    (∀ r : JVal, validateRule r = .ok true ↔ validSchemaSpec r = true) ∧
    (∀ (jsParse : String → Except String JVal) (resp : String) (v : JVal),
      jsParse (extractCandidate resp) = .ok v → validateRule v = .ok false →
      parseJsonFromResponse jsParse resp =
        { success := false, rule := none, source := none,
          error := some schemaErrorMsg, rawResponse := some resp }) ∧
    (∀ (jsParse : String → Except String JVal) (resp : String) (v : JVal) (m : String),
      jsParse (extractCandidate resp) = .ok v → validateRule v = .error m →
      parseJsonFromResponse jsParse resp =
        { success := false, rule := none, source := none,
          error := some (parseErrorPrefix ++ m), rawResponse := some resp }) ∧
    (∀ m : String, schemaErrorMsg ≠ parseErrorPrefix ++ m) := by
  refine ⟨?_, ?_, ?_, ?_⟩
  · intro r
    rcases hget : getPropEx r "conditions" with m | conds
    · have hund : r.getProp "conditions" = .undefined := by
        cases r <;> simp [getPropEx] at hget <;> rfl
      simp only [validateRule, hget]
      simp [validSchemaSpec, hund, truthy]
    · have hc : conds = r.getProp "conditions" := by
        cases r <;> simp [getPropEx] at hget <;> exact hget.symm
      subst hc
      simp only [validateRule, hget]
      rw [validSchemaSpec]
      rcases h1 : truthy (r.getProp "conditions") <;>
      rcases h2 : truthy (r.getProp "event") <;>
      rcases h3 : truthy ((r.getProp "conditions").getProp "all") <;>
      rcases h4 : truthy ((r.getProp "conditions").getProp "any") <;>
      simp [jsOr, h1, h2, h3, h4] <;>
      exact validateGroup_ok_true _
  · intro jsParse resp v hok hval
    simp only [parseJsonFromResponse, hok, hval]
  · intro jsParse resp v m hok hval
    simp only [parseJsonFromResponse, hok, hval]
  · intro m h
    have hdata : schemaErrorMsg.data = parseErrorPrefix.data ++ m.data := by
      rw [h, String.data_append]
    have htake := congrArg (List.take 40) hdata
    rw [show (40 : Nat) = parseErrorPrefix.data.length from rfl, List.take_left] at htake
    have : schemaErrorMsg.data.take parseErrorPrefix.data.length ≠ parseErrorPrefix.data := by decide
    exact this htake

/-- C3 witness: the schema-error branch applied at the concrete parsed value
`5` (a number, hence schema-invalid without a throw), and the throw branch
applied at the concrete parsed value `null`, on which the `rule.conditions`
access throws and the catch reports the parse-prefixed TypeError message. -/
theorem validateRule_schema_witness :
    parseJsonFromResponse (fun _ => Except.ok (JVal.num 5)) "x" =
      { success := false, rule := none, source := none,
        error := some schemaErrorMsg, rawResponse := some "x" } ∧
    parseJsonFromResponse (fun _ => Except.ok JVal.null) "y" =
      { success := false, rule := none, source := none,
        error := some (parseErrorPrefix ++
          "Cannot read properties of null (reading \x27conditions\x27)"),
        rawResponse := some "y" } :=
  ⟨validateRule_schema_spec.2.1 (fun _ => Except.ok (JVal.num 5)) "x" (JVal.num 5) rfl rfl,
   validateRule_schema_spec.2.2.1 (fun _ => Except.ok JVal.null) "y" JVal.null
     "Cannot read properties of null (reading \x27conditions\x27)" rfl rfl⟩

/-! ## Rule evaluator (json-rules-engine, modelled from spec §4.3) -/

/-- One atomic condition of a rule, as consumed by the engine. -/
structure Condition where
  fact : String
  operator : String
  value : JVal

/-- A rule's single condition group: `all` (AND) or `any` (OR). -/
inductive ConditionGroup where
  | all (conds : List Condition)
  | anyOf (conds : List Condition)

/-- A rule as held by the engine after `addRule`. -/
structure EngineRule where
  group : ConditionGroup
  event : JVal

/-- The eight canonical operator symbols (spec §3). -/
def canonicalOps : List String :=
  ["lessThan", "greaterThan", "equal", "notEqual",
   "lessThanInclusive", "greaterThanInclusive", "contains", "in"]

/-- Numeric view of a value. -/
def JVal.asNum : JVal → Option Rat
  | .num q => some q
  | _ => none

/-- Modelled from the spec: operator semantics of the json-rules-engine
dependency (spec §4.2/§4.3; the library is not part of this repository).
Ordering operators compare numerically and are false on non-numeric
operands; `equal`/`notEqual` use strict equality; `contains` is substring
containment on a textual record value and membership on a sequence record
value; `in` is membership of the record value in the condition value. -/
def opApply (op : String) (fv cv : JVal) : Bool :=
  if op == "lessThan" then
    match fv.asNum, cv.asNum with
    | some a, some b => decide (a < b)
    | _, _ => false
  else if op == "greaterThan" then
    match fv.asNum, cv.asNum with
    | some a, some b => decide (b < a)
    | _, _ => false
  else if op == "equal" then jsStrictEq fv cv
  else if op == "notEqual" then !(jsStrictEq fv cv)
  else if op == "lessThanInclusive" then
    match fv.asNum, cv.asNum with
    | some a, some b => decide (a ≤ b)
    | _, _ => false
  else if op == "greaterThanInclusive" then
    match fv.asNum, cv.asNum with
    | some a, some b => decide (b ≤ a)
    | _, _ => false
  else if op == "contains" then
    match fv with
    | .str s =>
      match cv with
      | .str p => substrOccurs s p
      | _ => false
    | .arr xs => xs.any (fun x => jsStrictEq x cv)
    | _ => false
  else if op == "in" then
    match cv with
    | .arr xs => xs.any (fun x => jsStrictEq fv x)
    | _ => false
  else false

/-- Modelled from the spec: per-condition evaluation (spec §4.3) — a
condition whose operator is not canonical fails the record's evaluation with
a recoverable error; a fact absent on the record makes the condition false
without failing. -/
def evalCondition (facts : JVal) (c : Condition) : Except String Bool :=
  if !(canonicalOps.contains c.operator) then
    .error ("Unknown operator: " ++ c.operator)
  else
    let fv := facts.getProp c.fact
    if fv.isUndefined then .ok false
    else .ok (opApply c.operator fv c.value)

/-- Modelled from the spec: one `engine.run(facts)` with a single added rule
(spec §4.3) — `all` is conjunction and `any` disjunction over the group, and
a successful run returns the rule's event exactly when the group holds. -/
def engineRun (rule : EngineRule) (facts : JVal) : Except String (List JVal) :=
  match rule.group with
  | .all cs => do
    let bs ← cs.mapM (evalCondition facts)
    pure (if bs.all (fun b => b) then [rule.event] else [])
  | .anyOf cs => do
    let bs ← cs.mapM (evalCondition facts)
    pure (if bs.any (fun b => b) then [rule.event] else [])

/-- Replace-or-append of a key in an object's field list (JS property set,
as performed by an object spread followed by a new key). -/
def setJField : List (String × JVal) → String → JVal → List (String × JVal)
  | [], k, v => [(k, v)]
  | (k0, v0) :: rest, k, v =>
    if k0 == k then (k, v) :: rest else (k0, v0) :: setJField rest k v

/-- The match record pushed by `applyRule`: a copy of the transaction
augmented with `_matchedEvents` (`{...transaction, _matchedEvents: events}`). -/
def addMatchedEvents (t : JVal) (events : List JVal) : JVal :=
  match t with
  | .obj fs => .obj (setJField fs "_matchedEvents" (.arr events))
  | _ => .obj [("_matchedEvents", .arr events)]

/-- `applyRule` of rule-engine-service.js: run the engine on each transaction,
collect the matches, and on a per-record error log and continue with the
remaining transactions. -/
def applyRule (rule : EngineRule) : List JVal → List JVal
  | [] => []
  | t :: ts =>
    match engineRun rule t with
    | .ok events =>
      if events.length > 0 then addMatchedEvents t events :: applyRule rule ts
      else applyRule rule ts
    | .error _ => applyRule rule ts

/-- Whether the engine run on a record succeeds with a non-empty event list. -/
def matchesRule (rule : EngineRule) (t : JVal) : Bool :=
  match engineRun rule t with
  | .ok events => !events.isEmpty
  | .error _ => false

/-- The events an engine run yields on a record (empty on error). -/
def eventsOf (rule : EngineRule) (t : JVal) : List JVal :=
  match engineRun rule t with
  | .ok events => events
  | .error _ => []

/-! ### Claim C5 -/

/-- C5: if the engine run fails on one record (for instance because an
operator is not one of the eight canonical symbols), only that record is
dropped: the pass over the surrounding records is unchanged and their
accumulated matches are still returned. -/
theorem applyRule_skips_failing_record :
    ∀ (rule : EngineRule) (t : JVal), (∃ e, engineRun rule t = .error e) →
    ∀ ts₁ ts₂ : List JVal,
      applyRule rule (ts₁ ++ t :: ts₂) = applyRule rule (ts₁ ++ ts₂) := by
  rintro rule t ⟨e, he⟩ ts₁ ts₂
  induction ts₁ with
  | nil => simp [applyRule, he]
  | cons a l ih =>
    simp only [List.cons_append, applyRule]
    cases h : engineRun rule a <;> simp [h, ih]

/-- A rule whose sole condition carries the non-canonical operator "badOp". -/
def badOpRule : EngineRule :=
  { group := .all [{ fact := "amt", operator := "badOp", value := JVal.num 1 }]
  , event := JVal.obj [("type", JVal.str "transaction-match")] }

/-- A transaction record used by the evaluator witnesses. -/
def recA : JVal := .obj [("amt", JVal.num 1)]

/-- C5 witness: the theorem applied to the "badOp" rule, whose engine run
fails on `recA`, inside the list `[recA, recA, recA]`. -/
theorem applyRule_skips_failing_record_witness :
    applyRule badOpRule [recA, recA, recA] = applyRule badOpRule [recA, recA] :=
  applyRule_skips_failing_record badOpRule recA
    ⟨"Unknown operator: badOp", rfl⟩ [recA] [recA]

/-! ### Claim C6 -/

/-- C6: `applyRule` returns an order-preserving subset of its input — it is
the filter of the input records by the match predicate, each returned record
being a copy of an input record augmented with the `_matchedEvents`
metadata; the input list itself is left untouched. -/
theorem applyRule_subset_order :
    ∀ (rule : EngineRule) (ts : List JVal),
      (ts.filter (matchesRule rule)).Sublist ts ∧
      applyRule rule ts =
        (ts.filter (matchesRule rule)).map (fun t => addMatchedEvents t (eventsOf rule t)) := by
  intro rule ts
  refine ⟨List.filter_sublist ts, ?_⟩
  induction ts with
  | nil => rfl
  | cons t ts ih =>
    rw [show applyRule rule (t :: ts) = match engineRun rule t with
      | .ok events =>
        if events.length > 0 then addMatchedEvents t events :: applyRule rule ts
        else applyRule rule ts
      | .error _ => applyRule rule ts from rfl]
    cases h : engineRun rule t with
    | error e => simp [List.filter_cons, matchesRule, h, ih]
    | ok events =>
      cases events with
      | nil => simp [List.filter_cons, matchesRule, h, ih]
      | cons ev evs => simp [List.filter_cons, matchesRule, eventsOf, h, ih]

/-! ## ollama-integration.js: summary statistics, prompts, summarizer -/

/-- The `t.amt` access of the summary-statistics code (records produced by
the CSV processor always carry a numeric `amt`). -/
def jAmt (t : JVal) : Rat :=
  match t.getProp "amt" with
  | .num q => q
  | _ => 0

/-- `matchedTransactions.map(t => t.amt)`. -/
def amounts (ts : List JVal) : List Rat := ts.map jAmt

/-- `Math.min(...amounts)`: fold of binary minimum.  The empty case stands in
for the JS `Infinity` (unrepresentable in `Rat`), which arises only for empty
match sets, where the value feeds only prompt text. -/
def jsMinList : List Rat → Rat
  | [] => 0
  | a :: rest => rest.foldl min a

/-- `Math.max(...amounts)`, dually. -/
def jsMaxList : List Rat → Rat
  | [] => 0
  | a :: rest => rest.foldl max a

/-- `const lowestAmount = Math.min(...amounts)`. -/
def lowestAmount (ts : List JVal) : Rat := jsMinList (amounts ts)

/-- `const highestAmount = Math.max(...amounts)`. -/
def highestAmount (ts : List JVal) : Rat := jsMaxList (amounts ts)

/-- `amounts.reduce((sum, amt) => sum + amt, 0) / amounts.length`. -/
def avgAmount (ts : List JVal) : Rat :=
  jDiv ((amounts ts).foldl jAdd 0) (ratOfNat (amounts ts).length)

/-- `matchedTransactions.find(t => t.amt === lowestAmount)`. -/
def lowestTransaction (ts : List JVal) : Option JVal :=
  ts.find? (fun t => jsStrictEq (t.getProp "amt") (.num (lowestAmount ts)))

/-- `matchedTransactions.find(t => t.amt === highestAmount)`. -/
def highestTransaction (ts : List JVal) : Option JVal :=
  ts.find? (fun t => jsStrictEq (t.getProp "amt") (.num (highestAmount ts)))

/-- `generateFallbackSummary` of ollama-integration.js.  (The source reads
`lowestTransaction.merchant` directly, which is only reached when the find
succeeded; the `undefined` default here models the same access.) -/
def generateFallbackSummary (originalQuery : String) (matchedTransactions : List JVal)
    (totalTransactions : Nat) : String :=
  let matchCount := matchedTransactions.length
  let percentage :=
    ratToFixed 1 (jMul (jDiv (ratOfNat matchCount) (ratOfNat totalTransactions)) 100)
  if matchCount == 0 then
    "No transactions matched the criteria \"" ++ originalQuery ++ "\" out of " ++
      toString totalTransactions ++ " total transactions."
  else
    "Found " ++ toString matchCount ++ " transactions (" ++ percentage ++
      "% of total) matching \"" ++ originalQuery ++ "\". The lowest amount was $" ++
      ratToFixed 2 (lowestAmount matchedTransactions) ++ " at " ++
      jsTemplate (((lowestTransaction matchedTransactions).getD .undefined).getProp "merchant") ++
      ", and the highest was $" ++ ratToFixed 2 (highestAmount matchedTransactions) ++ " at " ++
      jsTemplate (((highestTransaction matchedTransactions).getD .undefined).getProp "merchant") ++ "."

/-- An optional-chained property with a truthiness default, as in
`${lowestTransaction?.merchant || 'Unknown'}`. -/
def optProp (o : Option JVal) (key dflt : String) : String :=
  match o with
  | some t => if truthy (t.getProp key) then jsTemplate (t.getProp key) else dflt
  | none => dflt

/-- One line of the SAMPLE MATCHING TRANSACTIONS block of the summary prompt. -/
def sampleLine (i : Nat) (t : JVal) : String :=
  toString (i + 1) ++ ". $" ++ ratToFixed 2 (jAmt t) ++ " at " ++
    jsTemplate (t.getProp "merchant") ++ " (" ++ jsTemplate (t.getProp "category") ++ ") in " ++
    jsTemplate (t.getProp "city") ++ ", " ++ jsTemplate (t.getProp "state") ++ " on " ++
    jsTemplate (t.getProp "timestamp")

/-- `buildSummaryPrompt` of ollama-integration.js (the `generatedRule`
parameter is received and unused, as in the source). -/
def buildSummaryPrompt (originalQuery : String) (matchedTransactions : List JVal)
    (totalTransactions : Nat) (_generatedRule : JVal) : String :=
  "You are a financial data analyst providing insights on credit card transaction analysis results.\n\nORIGINAL QUERY: \"" ++
  originalQuery ++
  "\"\n\nANALYSIS RESULTS:\n- Total transactions in dataset: " ++ toString totalTransactions ++
  "\n- Transactions matching criteria: " ++ toString matchedTransactions.length ++
  "\n- Match percentage: " ++
  ratToFixed 1 (jMul (jDiv (ratOfNat matchedTransactions.length) (ratOfNat totalTransactions)) 100) ++
  "%\n\nFINANCIAL INSIGHTS:\n- Lowest matching amount: $" ++
  ratToFixed 2 (lowestAmount matchedTransactions) ++ " at " ++
  optProp (lowestTransaction matchedTransactions) "merchant" "Unknown" ++ " on " ++
  optProp (lowestTransaction matchedTransactions) "timestamp" "Unknown date" ++
  "\n- Highest matching amount: $" ++ ratToFixed 2 (highestAmount matchedTransactions) ++ " at " ++
  optProp (highestTransaction matchedTransactions) "merchant" "Unknown" ++ " on " ++
  optProp (highestTransaction matchedTransactions) "timestamp" "Unknown date" ++
  "\n- Average amount: $" ++ ratToFixed 2 (avgAmount matchedTransactions) ++
  "\n\nSAMPLE MATCHING TRANSACTIONS:\n" ++
  joinWith "\n" ((matchedTransactions.take 10).enum.map (fun p => sampleLine p.1 p.2)) ++
  "\n\nTASK: Generate a natural language summary that:\n1. States how many transactions matched the criteria\n2. Highlights the most notable findings (lowest, highest amounts)\n3. Mentions interesting patterns in merchants, categories, or locations\n4. Uses a professional but conversational tone\n5. Keep it concise (2-3 sentences maximum)\n\nProvide only the summary, no additional text:"

/-- One line of the AVAILABLE FIELDS block of the rule-generation prompt. -/
def fieldLine (f : FieldDescriptor) : String :=
  f.name ++ " (" ++ f.ftype ++ "): " ++ f.description

/-- `buildRuleGenerationPrompt` of ollama-integration.js. -/
def buildRuleGenerationPrompt (query : String) : String :=
  "You are a JSON rules engine generator for credit card transaction filtering. Your task is to convert natural language queries into precise JSON rules.\n\nAVAILABLE FIELDS:\n" ++
  joinWith "\n" (FIELD_MAPPING.map fieldLine) ++
  "\n\nSUPPORTED OPERATORS (use these EXACT names):\n- lessThan (for <, \"less than\", \"under\", \"below\")\n- greaterThan (for >, \"greater than\", \"over\", \"above\") \n- equal (for =, \"equals\", \"is\", \"equal to\") - NOT \"equals\"\n- notEqual (for !=, \"not equal\", \"not equals\")\n- lessThanInclusive (for <=, \"less than or equal\")\n- greaterThanInclusive (for >=, \"greater than or equal\")\n- contains (for text contains)\n- in (for value in array)\n\nCRITICAL RULES:\n1. Use ONLY the field names from the available fields list above\n2. Use ONLY the exact operator names listed above (e.g., \"equal\" NOT \"equals\")\n3. The \"amt\" field represents transaction amount in dollars\n4. For categories, use \"equal\" operator with exact string matching\n5. Return ONLY valid JSON, no other text\n6. Surround your JSON output with <result></result> tags\n\nQUERY: \"" ++
  query ++
  "\"\n\nGenerate a JSON rule following this exact structure:\n\x7b\n  \"conditions\": \x7b\n    \"all\": [\n      \x7b\n        \"fact\": \"field_name\",\n        \"operator\": \"operator_name\", \n        \"value\": value\n      \x7d\n    ]\n  \x7d,\n  \"event\": \x7b\n    \"type\": \"transaction-match\",\n    \"params\": \x7b\n      \"message\": \"Clear description of what this rule matches\"\n    \x7d\n  \x7d\n\x7d\n\n<result>"

/-- The external services a pipeline run consumes: the Ollama generate
endpoint (prompt to completion, or a transport error) and the JS built-in
`JSON.parse` (text to value, or a syntax error). -/
structure Env where
  backend : String → Except String String
  jsParse : String → Except String JVal

/-- Result record of `generateResultSummary`. -/
structure SummaryResult where
  success : Bool
  summary : Option String
  error : Option String
  fallbackSummary : Option String

/-- `generateResultSummary` of ollama-integration.js: always posts the
summary prompt to the backend; on success returns the trimmed completion, on
failure degrades to the deterministic fallback summary.  The returned list
extends `log` with the outbound request. -/
def generateResultSummary (env : Env) (originalQuery : String)
    (matchedTransactions : List JVal) (totalTransactions : Nat) (generatedRule : JVal)
    (log : List String) : SummaryResult × List String :=
  let prompt := buildSummaryPrompt originalQuery matchedTransactions totalTransactions generatedRule
  match env.backend prompt with
  | .ok text =>
    ({ success := true, summary := some (jsTrim text), error := none, fallbackSummary := none },
     log ++ [prompt])
  | .error msg =>
    ({ success := false, summary := none,
       error := some ("Summary generation failed: " ++ msg),
       fallbackSummary :=
         some (generateFallbackSummary originalQuery matchedTransactions totalTransactions) },
     log ++ [prompt])

/-! ### Claim C1 -/

/-- An environment whose backend always answers with the narrative
"NARRATIVE". -/
def envNarrative : Env :=
  { backend := fun _ => .ok "NARRATIVE", jsParse := fun _ => .error "unused" }

/-- C1 counterexample: called on an EMPTY match set with a healthy backend,
the summarizer still sends one request to the narrative backend and returns
the backend's narrative, not the zero-matches template — refuting the claim
that an empty match set yields the template without invoking the backend. -/
theorem summarizer_calls_backend_on_empty_cex :
    (generateResultSummary envNarrative "q" [] 5 JVal.undefined []).2.length = 1 ∧
    (generateResultSummary envNarrative "q" [] 5 JVal.undefined []).1.summary = some "NARRATIVE" ∧
    "NARRATIVE" ≠ "No transactions matched the criteria \"q\" out of 5 total transactions." := by
  refine ⟨rfl, rfl, by decide⟩

/-- C1 (amended): on an empty match set the summarizer still posts exactly
one request to the narrative backend; only when that call fails does it
produce the templated message stating zero matches out of `totalCount`, as
the fallback summary. -/
theorem summarizer_empty_matches_spec :
    ∀ (env : Env) (q : String) (total : Nat) (rule : JVal) (log : List String),
      (generateResultSummary env q [] total rule log).2 =
        log ++ [buildSummaryPrompt q [] total rule] ∧
      (∀ m, env.backend (buildSummaryPrompt q [] total rule) = .error m →
        (generateResultSummary env q [] total rule log).1.fallbackSummary =
          some ("No transactions matched the criteria \"" ++ q ++ "\" out of " ++
            toString total ++ " total transactions.")) := by
  intro env q total rule log
  constructor
  · rw [generateResultSummary]
    cases env.backend (buildSummaryPrompt q [] total rule) <;> rfl
  · intro m hm
    rw [generateResultSummary, hm]
    rfl

/-- An environment whose backend always fails with "down". -/
def envDown : Env :=
  { backend := fun _ => .error "down", jsParse := fun _ => .error "unused" }

/-- C1 witness: the amended theorem applied to the failing backend, empty
match set and total count 7. -/
theorem summarizer_empty_matches_witness :
    (generateResultSummary envDown "q" [] 7 JVal.undefined []).1.fallbackSummary =
      some "No transactions matched the criteria \"q\" out of 7 total transactions." :=
  (summarizer_empty_matches_spec envDown "q" 7 JVal.undefined []).2 "down" rfl

/-! ### Claim C8 -/

theorem foldl_min_le_init (l : List Rat) : ∀ a : Rat, l.foldl min a ≤ a := by
  induction l with
  | nil => intro a; exact le_refl a
  | cons b t ih =>
    intro a
    rw [List.foldl_cons]
    exact le_trans (ih (min a b)) (min_le_left a b)

theorem foldl_min_le_mem (l : List Rat) : ∀ a b, b ∈ l → l.foldl min a ≤ b := by
  induction l with
  | nil => intro a b h; cases h
  | cons c t ih =>
    intro a b h
    rw [List.foldl_cons]
    rcases List.mem_cons.mp h with h1 | h2
    · subst h1
      exact le_trans (foldl_min_le_init t (min a b)) (min_le_right a b)
    · exact ih (min a c) b h2

theorem foldl_min_mem (l : List Rat) : ∀ a, l.foldl min a = a ∨ l.foldl min a ∈ l := by
  induction l with
  | nil => intro a; exact Or.inl rfl
  | cons c t ih =>
    intro a
    rw [List.foldl_cons]
    rcases ih (min a c) with h | h
    · rcases min_choice a c with hm | hm
      · left; rw [h, hm]
      · right; rw [h, hm]; exact List.mem_cons_self c t
    · right; exact List.mem_cons_of_mem c h

theorem foldl_max_init_le (l : List Rat) : ∀ a : Rat, a ≤ l.foldl max a := by
  induction l with
  | nil => intro a; exact le_refl a
  | cons b t ih =>
    intro a
    rw [List.foldl_cons]
    exact le_trans (le_max_left a b) (ih (max a b))

theorem foldl_max_mem_le (l : List Rat) : ∀ a b, b ∈ l → b ≤ l.foldl max a := by
  induction l with
  | nil => intro a b h; cases h
  | cons c t ih =>
    intro a b h
    rw [List.foldl_cons]
    rcases List.mem_cons.mp h with h1 | h2
    · subst h1
      exact le_trans (le_max_right a b) (foldl_max_init_le t (max a b))
    · exact ih (max a c) b h2

theorem foldl_max_mem (l : List Rat) : ∀ a, l.foldl max a = a ∨ l.foldl max a ∈ l := by
  induction l with
  | nil => intro a; exact Or.inl rfl
  | cons c t ih =>
    intro a
    rw [List.foldl_cons]
    rcases ih (max a c) with h | h
    · rcases max_choice a c with hm | hm
      · left; rw [h, hm]
      · right; rw [h, hm]; exact List.mem_cons_self c t
    · right; exact List.mem_cons_of_mem c h

theorem foldl_jAdd_eq_sum (l : List Rat) : ∀ a : Rat, l.foldl jAdd a = a + l.sum := by
  induction l with
  | nil => intro a; simp
  | cons b t ih =>
    intro a
    rw [List.foldl_cons, ih (jAdd a b), jAdd_eq, List.sum_cons, add_assoc]

theorem find?_split {α : Type} (p : α → Bool) :
    ∀ (l : List α) (a : α), l.find? p = some a →
    ∃ l₁ l₂, l = l₁ ++ a :: l₂ ∧ (∀ x ∈ l₁, p x = false) ∧ p a = true := by
  intro l
  induction l with
  | nil => intro a h; simp [List.find?] at h
  | cons b t ih =>
    intro a h
    cases hp : p b with
    | true =>
      rw [List.find?_cons_of_pos _ hp, Option.some_inj] at h
      subst h
      refine ⟨[], t, rfl, ?_, hp⟩
      intro x hx
      cases hx
    | false =>
      rw [List.find?_cons_of_neg _ (by simp [hp])] at h
      obtain ⟨l₁, l₂, heq, hall, hpa⟩ := ih a h
      refine ⟨b :: l₁, l₂, by rw [heq, List.cons_append], ?_, hpa⟩
      intro x hx
      rcases List.mem_cons.mp hx with h1 | h2
      · subst h1; exact hp
      · exact hall x h2

theorem find?_isSome_of_mem {α : Type} (p : α → Bool) :
    ∀ (l : List α) (x : α), x ∈ l → p x = true → ∃ a, l.find? p = some a := by
  intro l
  induction l with
  | nil => intro x hx; cases hx
  | cons b t ih =>
    intro x hx hpx
    cases hp : p b with
    | true => exact ⟨b, List.find?_cons_of_pos _ hp⟩
    | false =>
      rcases List.mem_cons.mp hx with h1 | h2
      · subst h1; rw [hp] at hpx; cases hpx
      · obtain ⟨a, ha⟩ := ih x h2 hpx
        exact ⟨a, by rw [List.find?_cons_of_neg _ (by simp [hp]), ha]⟩

/-- The `t.amt === m` comparison agrees with `jAmt` equality on records whose
`amt` is numeric. -/
theorem jsStrictEq_amt {t : JVal} {m : Rat} (h : (t.getProp "amt").isNum = true) :
    jsStrictEq (t.getProp "amt") (.num m) = true ↔ jAmt t = m := by
  cases hv : t.getProp "amt" <;> rw [hv] at h <;> simp [JVal.isNum] at h
  rename_i q
  simp [jsStrictEq, jAmt, hv]

/-- C8: on a non-empty match set with numeric amounts, the summarizer's
statistics are the true minimum, maximum and arithmetic mean of the amounts;
the records it identifies for the minimum and maximum are the first (in
input order) that attain them; and the fallback summary renders the minimum
and maximum to two decimal places. -/
theorem summary_statistics_spec :
    ∀ ts : List JVal, ts ≠ [] → (∀ t ∈ ts, (t.getProp "amt").isNum = true) →
    (lowestAmount ts ∈ amounts ts ∧ ∀ a ∈ amounts ts, lowestAmount ts ≤ a) ∧
    (highestAmount ts ∈ amounts ts ∧ ∀ a ∈ amounts ts, a ≤ highestAmount ts) ∧
    avgAmount ts = (amounts ts).sum / (ts.length : Rat) ∧
    (∃ t l₁ l₂, lowestTransaction ts = some t ∧ ts = l₁ ++ t :: l₂ ∧
      jAmt t = lowestAmount ts ∧ ∀ u ∈ l₁, jAmt u ≠ lowestAmount ts) ∧
    (∃ t l₁ l₂, highestTransaction ts = some t ∧ ts = l₁ ++ t :: l₂ ∧
      jAmt t = highestAmount ts ∧ ∀ u ∈ l₁, jAmt u ≠ highestAmount ts) ∧
    (∀ q total, generateFallbackSummary q ts total =
      "Found " ++ toString ts.length ++ " transactions (" ++
      ratToFixed 1 (jMul (jDiv (ratOfNat ts.length) (ratOfNat total)) 100) ++
      "% of total) matching \"" ++ q ++ "\". The lowest amount was $" ++
      ratToFixed 2 (lowestAmount ts) ++ " at " ++
      jsTemplate (((lowestTransaction ts).getD .undefined).getProp "merchant") ++
      ", and the highest was $" ++ ratToFixed 2 (highestAmount ts) ++ " at " ++
      jsTemplate (((highestTransaction ts).getD .undefined).getProp "merchant") ++ ".") := by
  intro ts hne hnum
  obtain ⟨t0, rest, rfl⟩ := List.exists_cons_of_ne_nil hne
  have hmin_mem : lowestAmount (t0 :: rest) ∈ amounts (t0 :: rest) := by
    rw [lowestAmount, amounts, List.map_cons, jsMinList]
    rcases foldl_min_mem (rest.map jAmt) (jAmt t0) with h | h
    · rw [h]; exact List.mem_cons_self _ _
    · exact List.mem_cons_of_mem _ h
  have hmin_le : ∀ a ∈ amounts (t0 :: rest), lowestAmount (t0 :: rest) ≤ a := by
    intro a ha
    rw [lowestAmount, amounts, List.map_cons, jsMinList]
    rw [amounts, List.map_cons] at ha
    rcases List.mem_cons.mp ha with h1 | h2
    · subst h1; exact foldl_min_le_init _ _
    · exact foldl_min_le_mem _ _ _ h2
  have hmax_mem : highestAmount (t0 :: rest) ∈ amounts (t0 :: rest) := by
    rw [highestAmount, amounts, List.map_cons, jsMaxList]
    rcases foldl_max_mem (rest.map jAmt) (jAmt t0) with h | h
    · rw [h]; exact List.mem_cons_self _ _
    · exact List.mem_cons_of_mem _ h
  have hmax_le : ∀ a ∈ amounts (t0 :: rest), a ≤ highestAmount (t0 :: rest) := by
    intro a ha
    rw [highestAmount, amounts, List.map_cons, jsMaxList]
    rw [amounts, List.map_cons] at ha
    rcases List.mem_cons.mp ha with h1 | h2
    · subst h1; exact foldl_max_init_le _ _
    · exact foldl_max_mem_le _ _ _ h2
  have hfind : ∀ m : Rat, m ∈ amounts (t0 :: rest) →
      ∃ t l₁ l₂,
        (t0 :: rest).find? (fun t => jsStrictEq (t.getProp "amt") (.num m)) = some t ∧
        t0 :: rest = l₁ ++ t :: l₂ ∧ jAmt t = m ∧ ∀ u ∈ l₁, jAmt u ≠ m := by
    intro m hm
    obtain ⟨u, hu, hamt⟩ := List.mem_map.mp hm
    have hpu : jsStrictEq (u.getProp "amt") (.num m) = true :=
      (jsStrictEq_amt (hnum u hu)).mpr hamt
    obtain ⟨t, ht⟩ := find?_isSome_of_mem
      (fun t => jsStrictEq (t.getProp "amt") (.num m)) (t0 :: rest) u hu hpu
    obtain ⟨l₁, l₂, heq, hall, hpt⟩ := find?_split
      (fun t => jsStrictEq (t.getProp "amt") (.num m)) (t0 :: rest) t ht
    have htmem : t ∈ t0 :: rest := by rw [heq]; exact List.mem_append_right l₁ (List.mem_cons_self t l₂)
    refine ⟨t, l₁, l₂, ht, heq, (jsStrictEq_amt (hnum t htmem)).mp hpt, ?_⟩
    intro v hv hvamt
    have hvmem : v ∈ t0 :: rest := by
      rw [heq]; exact List.mem_append_left _ hv
    have : jsStrictEq (v.getProp "amt") (.num m) = true :=
      (jsStrictEq_amt (hnum v hvmem)).mpr hvamt
    rw [hall v hv] at this
    cases this
  refine ⟨⟨hmin_mem, hmin_le⟩, ⟨hmax_mem, hmax_le⟩, ?_, hfind _ hmin_mem, hfind _ hmax_mem, ?_⟩
  · rw [avgAmount, foldl_jAdd_eq_sum, zero_add, jDiv_eq, ratOfNat_eq, amounts, List.length_map]
  · intro q total
    rw [generateFallbackSummary]
    simp only [List.length_cons, Nat.succ_ne_zero, beq_iff_eq, if_false, reduceIte]

/-- The concrete match set of the C8 witness: amounts 5, 2, 2 with the
minimum tied between the second and third records. -/
def tsStats : List JVal :=
  [ .obj [("amt", .num 5), ("merchant", .str "A")]
  , .obj [("amt", .num 2), ("merchant", .str "B")]
  , .obj [("amt", .num 2), ("merchant", .str "C")] ]

/-- C8 witness: the theorem applied to the concrete three-record match set. -/
theorem summary_statistics_witness :
    lowestAmount tsStats ∈ amounts tsStats ∧
    (∀ a ∈ amounts tsStats, lowestAmount tsStats ≤ a) ∧
    avgAmount tsStats = (amounts tsStats).sum / (tsStats.length : Rat) :=
  ⟨(summary_statistics_spec tsStats (by simp [tsStats]) (by decide)).1.1,
   (summary_statistics_spec tsStats (by simp [tsStats]) (by decide)).1.2,
   (summary_statistics_spec tsStats (by simp [tsStats]) (by decide)).2.2.1⟩

/-! ## ollama-integration.js: generateRule; rule-engine-service.js: orchestrator -/

/-- The error message of a failed backend request in `generateRule`. -/
def ollamaFailMsg (msg : String) : String :=
  "Ollama request failed: " ++ msg ++
    ". Please ensure Ollama is running and the model \x27llama3.2:3b-instruct-fp16\x27 is available."

/-- `generateRule` of ollama-integration.js: build the prompt, post it to the
backend once, and parse the completion; a transport failure is reported as an
error result, never retried.  The returned list extends `log` with the single
outbound request. -/
def generateRule (env : Env) (query : String) (log : List String) :
    RuleGenResult × List String :=
  let prompt := buildRuleGenerationPrompt query
  match env.backend prompt with
  | .ok generatedText => (parseJsonFromResponse env.jsParse generatedText, log ++ [prompt])
  | .error msg =>
    ({ success := false, rule := none, source := none,
       error := some (ollamaFailMsg msg), rawResponse := none }, log ++ [prompt])

/-- Modelled from the spec: one condition as read by `engine.addRule`
(json-rules-engine; spec §3). -/
def toCondition (v : JVal) : Condition :=
  { fact := match v.getProp "fact" with | .str s => s | _ => ""
  , operator := match v.getProp "operator" with | .str s => s | _ => ""
  , value := v.getProp "value" }

/-- Modelled from the spec: the condition array of a validated rule value. -/
def toConditionList (v : JVal) : List Condition :=
  match v with
  | .arr xs => xs.map toCondition
  | _ => []

/-- Modelled from the spec: conversion of a validated rule value into the
engine's internal rule (`engine.addRule`; spec §3 — exactly one truthy group
is selected, `all` taking precedence as in the validator). -/
def toEngineRule (v : JVal) : EngineRule :=
  if truthy ((v.getProp "conditions").getProp "all") then
    { group := .all (toConditionList ((v.getProp "conditions").getProp "all"))
    , event := v.getProp "event" }
  else
    { group := .anyOf (toConditionList ((v.getProp "conditions").getProp "any"))
    , event := v.getProp "event" }

/-- The in-memory state of a `RuleEngineService`: the initialization flag and
the CSV processor's loaded transactions. -/
structure Service where
  isInitialized : Bool
  transactions : List JVal

/-- The `results` sub-object of a successful query result. -/
structure QueryStats where
  matchCount : Nat
  totalTransactions : Nat
  matchPercentage : JVal

/-- The caller-facing result of `processQuery`. -/
structure QueryResult where
  success : Bool
  query : Option String
  generatedRule : Option JVal
  matchedTransactions : Option (List JVal)
  results : Option QueryStats
  summary : Option String
  source : Option String
  error : Option String
  helpMessage : Option String

/-- The static help message attached to a generation failure in `processQuery`. -/
def helpMsg : String :=
  "Please ensure Ollama is running and try queries like: \"show me transactions with amount less than 10\" or \"find transactions where category is food_dining\""

/-- The failure result `processQuery` returns before initialization. -/
def notInitializedResult : QueryResult :=
  { success := false, query := none, generatedRule := none, matchedTransactions := none,
    results := none, summary := none, source := none,
    error := some "Service not initialized. Call initialize() first.", helpMessage := none }

/-- Steps 2 and 3 of `processQuery` (rule application, summary generation and
result assembly), reached once rule generation succeeded. -/
def processQuerySuccess (env : Env) (svc : Service) (q : String) (ruleOpt : Option JVal)
    (log : List String) : QueryResult × List String :=
  let rule := ruleOpt.getD JVal.undefined
  let filtered := applyRule (toEngineRule rule) svc.transactions
  let sr := generateResultSummary env q filtered svc.transactions.length rule log
  ({ success := true, query := some q, generatedRule := ruleOpt,
     matchedTransactions := some filtered,
     results := some
       { matchCount := filtered.length
       , totalTransactions := svc.transactions.length
       , matchPercentage := JVal.str (ratToFixed 1
           (jMul (jDiv (ratOfNat filtered.length) (ratOfNat svc.transactions.length)) 100)) },
     summary := if sr.1.success then sr.1.summary
                else some (jsOrStr sr.1.fallbackSummary "Summary generation failed."),
     source := some "ollama", error := none, helpMessage := none }, sr.2)

/-- `processQuery` of rule-engine-service.js. -/
def processQuery (env : Env) (svc : Service) (q : String) (log : List String) :
    QueryResult × List String :=
  if svc.isInitialized then
    let gr := generateRule env q log
    if gr.1.success then processQuerySuccess env svc q gr.1.rule gr.2
    else
      ({ success := false, query := none, generatedRule := none, matchedTransactions := none,
         results := none, summary := none, source := none,
         error := gr.1.error, helpMessage := some helpMsg }, gr.2)
  else (notInitializedResult, log)

theorem generateFallbackSummary_ne_empty (q : String) (ts : List JVal) (total : Nat) :
    generateFallbackSummary q ts total ≠ "" := by
  simp only [generateFallbackSummary]
  split <;> intro h <;>
    have hd := congrArg String.data h <;>
    rw [show ("" : String).data = [] from rfl] at hd <;>
    simp only [String.data_append, List.append_assoc] at hd
  · have h1 := (List.append_eq_nil.mp hd).1
    revert h1
    decide
  · have h1 := (List.append_eq_nil.mp hd).1
    revert h1
    decide

/-! ### Claim C10 -/

/-- C10: before a successful `initialize`, `processQuery` returns the
not-initialized failure and leaves the request log untouched — no backend
request, no rule generation, no record evaluation. -/
theorem processQuery_requires_initialization :
    ∀ (env : Env) (svc : Service) (q : String) (log : List String),
      svc.isInitialized = false →
      processQuery env svc q log = (notInitializedResult, log) ∧
      notInitializedResult.success = false ∧
      notInitializedResult.error = some "Service not initialized. Call initialize() first." := by
  intro env svc q log h
  refine ⟨?_, rfl, rfl⟩
  rw [processQuery, h]
  rfl

/-- An uninitialized service holding no transactions. -/
def svcUninit : Service := { isInitialized := false, transactions := [] }

/-- C10 witness: the theorem applied to an uninitialized service. -/
theorem processQuery_requires_initialization_witness :
    processQuery envDown svcUninit "q" [] = (notInitializedResult, []) :=
  (processQuery_requires_initialization envDown svcUninit "q" [] rfl).1

/-! ### Claim C7 -/

/-- C7: when the backend completion yields no parsable JSON candidate,
`generateRule` fails with the parse error carrying the raw response after
exactly one outbound request, and `processQuery` returns a structured
failure carrying that error's message together with the help message —
no exception, no retry. -/
theorem generateRule_parse_failure :
    ∀ (env : Env) (svc : Service) (q : String) (log : List String) (text m : String),
      svc.isInitialized = true →
      env.backend (buildRuleGenerationPrompt q) = .ok text →
      env.jsParse (extractCandidate text) = .error m →
      (generateRule env q log).1 =
        { success := false, rule := none, source := none,
          error := some (parseErrorPrefix ++ m), rawResponse := some text } ∧
      (generateRule env q log).2 = log ++ [buildRuleGenerationPrompt q] ∧
      (processQuery env svc q log).1 =
        { success := false, query := none, generatedRule := none, matchedTransactions := none,
          results := none, summary := none, source := none,
          error := some (parseErrorPrefix ++ m), helpMessage := some helpMsg } ∧
      (processQuery env svc q log).2 = log ++ [buildRuleGenerationPrompt q] := by
  intro env svc q log text m hinit hb hp
  have hgen : generateRule env q log =
      ({ success := false, rule := none, source := none,
         error := some (parseErrorPrefix ++ m), rawResponse := some text },
       log ++ [buildRuleGenerationPrompt q]) := by
    simp only [generateRule, hb]
    rw [parseJsonFromResponse, hp]
  refine ⟨by rw [hgen], by rw [hgen], ?_, ?_⟩ <;>
    simp [processQuery, hinit, hgen]

/-- A backend whose completion contains no JSON, over a parser that rejects. -/
def envNoJson : Env :=
  { backend := fun _ => .ok "no json here", jsParse := fun _ => .error "Unexpected token" }

/-- An initialized service with an empty record set. -/
def svcEmpty : Service := { isInitialized := true, transactions := [] }

/-- C7 witness: the theorem applied to the JSON-free completion
"no json here". -/
theorem generateRule_parse_failure_witness :
    (processQuery envNoJson svcEmpty "q" []).1.success = false ∧
    (processQuery envNoJson svcEmpty "q" []).1.error =
      some (parseErrorPrefix ++ "Unexpected token") := by
  have h := (generateRule_parse_failure envNoJson svcEmpty "q" [] "no json here"
    "Unexpected token" rfl rfl rfl).2.2.1
  exact ⟨by rw [h], by rw [h]⟩

/-! ### Shared concrete pipeline inputs -/

/-- A well-formed generated rule: amt lessThan 10. -/
def ruleJ : JVal :=
  .obj [ ("conditions", .obj
           [("all", .arr [.obj [("fact", .str "amt"), ("operator", .str "lessThan"), ("value", .num 10)]])])
       , ("event", .obj [("type", .str "transaction-match"),
           ("params", .obj [("message", .str "Transactions under 10")])]) ]

/-- An initialized service with two transactions, of amounts 5 and 15. -/
def svcTwo : Service :=
  { isInitialized := true
  , transactions := [ .obj [("amt", .num 5), ("merchant", .str "A")]
                    , .obj [("amt", .num 15), ("merchant", .str "B")] ] }

/-! ### Claim C9 -/

/-- C9: once rule generation has succeeded, a failure of the summary backend
never fails the query: `processQuery` still reports success, and the summary
degrades to the deterministic fallback template. -/
theorem summary_never_fails_query :
    ∀ (env : Env) (svc : Service) (q : String) (log : List String) (r : JVal) (m : String),
      svc.isInitialized = true →
      (generateRule env q log).1.success = true →
      (generateRule env q log).1.rule = some r →
      env.backend (buildSummaryPrompt q (applyRule (toEngineRule r) svc.transactions)
        svc.transactions.length r) = .error m →
      (processQuery env svc q log).1.success = true ∧
      (processQuery env svc q log).1.summary =
        some (generateFallbackSummary q (applyRule (toEngineRule r) svc.transactions)
          svc.transactions.length) := by
  intro env svc q log r m hinit hsucc hrule hsum
  have hne := generateFallbackSummary_ne_empty q
    (applyRule (toEngineRule r) svc.transactions) svc.transactions.length
  simp [processQuery, hinit, hsucc, processQuerySuccess, hrule,
    generateResultSummary, hsum, jsOrStr, hne]

/-- A backend that fails exactly on the summary prompt (recognized by its
leading text), with a parser that returns the well-formed rule. -/
def envSummaryDown : Env :=
  { backend := fun p =>
      if leadsWith p "You are a financial data analyst" then .error "down"
      else .ok "<result>ignored</result>"
  , jsParse := fun _ => .ok ruleJ }

/-- C9 witness: the theorem applied to the concrete two-record service with
the summary backend down. -/
theorem summary_never_fails_query_witness :
    (processQuery envSummaryDown svcTwo "q" []).1.success = true ∧
    (processQuery envSummaryDown svcTwo "q" []).1.summary =
      some (generateFallbackSummary "q" (applyRule (toEngineRule ruleJ) svcTwo.transactions)
        svcTwo.transactions.length) :=
  summary_never_fails_query envSummaryDown svcTwo "q" [] ruleJ "down" rfl rfl rfl rfl

/-! ### Claim C4 -/

/-- C4 (amended): a successful `processQuery` result carries the original
query, the generated rule, the matched transactions, and a `results` object
whose `matchPercentage` is the STRING rendering (one decimal place, via
`toFixed(1)`) of (matchCount / totalTransactions) × 100, together with a
summary; the non-empty-dataset hypothesis excludes the 0/0 (JS `NaN`) case. -/
theorem processQuery_success_shape :
    ∀ (env : Env) (svc : Service) (q : String) (log : List String) (r : JVal),
      svc.isInitialized = true →
      svc.transactions ≠ [] →
      (generateRule env q log).1.success = true →
      (generateRule env q log).1.rule = some r →
      (processQuery env svc q log).1.success = true ∧
      (processQuery env svc q log).1.query = some q ∧
      (processQuery env svc q log).1.generatedRule = some r ∧
      (processQuery env svc q log).1.matchedTransactions =
        some (applyRule (toEngineRule r) svc.transactions) ∧
      (processQuery env svc q log).1.results = some
        { matchCount := (applyRule (toEngineRule r) svc.transactions).length
        , totalTransactions := svc.transactions.length
        , matchPercentage := JVal.str (ratToFixed 1 (jMul (jDiv
            (ratOfNat (applyRule (toEngineRule r) svc.transactions).length)
            (ratOfNat svc.transactions.length)) 100)) } ∧
      (processQuery env svc q log).1.error = none ∧
      (processQuery env svc q log).1.summary.isSome = true := by
  intro env svc q log r hinit _hne hsucc hrule
  have hpq : processQuery env svc q log =
      processQuerySuccess env svc q (some r) (generateRule env q log).2 := by
    simp [processQuery, hinit, hsucc, hrule]
  rw [hpq]
  refine ⟨rfl, rfl, rfl, rfl, rfl, rfl, ?_⟩
  simp only [processQuerySuccess, Option.getD_some]
  cases hb : env.backend (buildSummaryPrompt q
      (applyRule (toEngineRule r) svc.transactions) svc.transactions.length r) <;>
    simp [generateResultSummary, hb]

/-- A healthy environment: the backend always completes, the parser always
returns the well-formed rule. -/
def envFifty : Env :=
  { backend := fun _ => .ok "resp", jsParse := fun _ => .ok ruleJ }

/-- C4 counterexample: a concrete successful run in which one of two records
matches, whose `matchPercentage` is the STRING "50.0" and not a number —
refuting the claim that `matchPercentage` is a number. -/
theorem matchPercentage_is_string_cex :
    (processQuery envFifty svcTwo "q" []).1.results =
      some { matchCount := 1, totalTransactions := 2, matchPercentage := JVal.str "50.0" } ∧
    (JVal.str "50.0").isNum = false := by
  refine ⟨rfl, rfl⟩

/-- C4 witness: the amended theorem applied to the concrete healthy
environment and two-record service. -/
theorem processQuery_success_shape_witness :
    (processQuery envFifty svcTwo "q" []).1.success = true ∧
    (processQuery envFifty svcTwo "q" []).1.summary.isSome = true := by
  have h := processQuery_success_shape envFifty svcTwo "q" [] ruleJ rfl
    (by simp [svcTwo]) rfl rfl
  exact ⟨h.1, h.2.2.2.2.2.2⟩

end RulesDemo
